import Mathlib

/-!
# Radius: request handler (handlerv3) and the env-create runner

A shallow embedding of `pkg/radrp/frontend/handlerv3/handler.go` and of
`pkg/cli/cmd/env/create/create.go`.

Go values become Lean values; a Go `error` is carried by its `Error()` text;
a handler, which in Go writes to the response writer, the logger and the
resource provider, becomes a function that returns the ordered list of those
effects (`Event`) together with the panic that ended it, if any.  The
collaborators whose code lives in other packages (the resource provider, the
validator factory, the resource id parser, the response writer, the JSON
decoder) are fields of the records `handler` and `World`.
-/

namespace Radius

/-- Go error value, seen through the text its Error method returns. -/
structure GoError where
  text : String
  deriving DecidableEq, Repr

/-- Go runtime panic, with the runtime's message. -/
structure Panic where
  msg : String
  deriving DecidableEq, Repr

/-- Body of a request as a slice of bytes. -/
abbrev Bytes := List Nat

/-- Go slice indexing `xs[i]` with a signed index: out of range gives none. -/
def goIndex {α : Type} (xs : List α) (i : Int) : Option α :=
  if i < 0 then none else xs[i.toNat]?

/-- Substring test: the characters of `t` occur consecutively in `s`. -/
def contains (s t : String) : Prop := t.data <:+: s.data

instance (s t : String) : Decidable (contains s t) := by
  unfold contains; infer_instance

namespace azresources

/-- One type segment of a resource id (azresources.ResourceType). -/
structure ResourceType where
  Type_ : String
  Name : String
  deriving DecidableEq, Repr

/-- Parsed resource id (azresources.ResourceID). -/
structure ResourceID where
  ID : String
  SubscriptionID : String
  ResourceGroup : String
  Types : List ResourceType
  deriving DecidableEq, Repr

end azresources

namespace schemav3

/-- One validation failure (schemav3.ValidationError); JSONError is nil or an error. -/
structure ValidationError where
  Position : String
  Message : String
  JSONError : Option GoError
  deriving DecidableEq, Repr

/-- The schemav3.Validator interface: its single method ValidateJSON. -/
structure Validator where
  ValidateJSON : Bytes → List ValidationError

end schemav3

namespace armerrors

/-- ARM error detail (armerrors.ErrorDetails); unset string fields are empty. -/
structure ErrorDetails where
  Code : String
  Message : String
  Details : List ErrorDetails
  deriving Repr

/-- Zero value of ErrorDetails, as produced by Go's make. -/
def ErrorDetails.zero : ErrorDetails := { Code := "", Message := "", Details := [] }

/-- ARM error envelope (armerrors.ErrorResponse). -/
structure ErrorResponse where
  Error : ErrorDetails
  deriving Repr

end armerrors

namespace rest

/-- A rest.Response value: an ARM error response with its HTTP status, or any
other response a resource provider hands back. -/
inductive Response where
  | ARM (status : Nat) (body : armerrors.ErrorResponse)
  | Other (status : Nat) (payload : Bytes)
  deriving Repr

/-- Modelled from the spec: rest.NewBadRequestARMResponse is declared in
pkg/radrp/rest; it wraps the body in the 400 bad-request response. -/
def NewBadRequestARMResponse (body : armerrors.ErrorResponse) : Response :=
  .ARM 400 body

/-- Modelled from the spec: rest.NewInternalServerErrorARMResponse is declared in
pkg/radrp/rest; it wraps the body in the HTTP 500 response. -/
def NewInternalServerErrorARMResponse (body : armerrors.ErrorResponse) : Response :=
  .ARM 500 body

/-- HTTP status carried by a response. -/
def Response.status : Response → Nat
  | .ARM status _ => status
  | .Other status _ => status

end rest

namespace resourceproviderv3

open azresources

/-- Input document of ListSecrets (resourceproviderv3.ListSecretsInput); the
handler only decodes it and passes it on. -/
structure ListSecretsInput where
  TargetID : String
  deriving DecidableEq, Repr

/-- The resourceproviderv3.ResourceProvider interface; every method returns a
response or a Go error. -/
structure ResourceProvider where
  ListApplications : ResourceID → Except GoError rest.Response
  GetApplication : ResourceID → Except GoError rest.Response
  UpdateApplication : ResourceID → Bytes → Except GoError rest.Response
  DeleteApplication : ResourceID → Except GoError rest.Response
  ListAllV3ResourcesByApplication : ResourceID → Except GoError rest.Response
  ListResources : ResourceID → Except GoError rest.Response
  GetResource : ResourceID → Except GoError rest.Response
  UpdateResource : ResourceID → Bytes → Except GoError rest.Response
  DeleteResource : ResourceID → Except GoError rest.Response
  GetOperation : ResourceID → Except GoError rest.Response
  ListSecrets : ListSecretsInput → Except GoError rest.Response

/-- A call made on the resource provider, with its arguments. -/
inductive Call where
  | ListApplications (id : ResourceID)
  | GetApplication (id : ResourceID)
  | UpdateApplication (id : ResourceID) (body : Bytes)
  | DeleteApplication (id : ResourceID)
  | ListAllV3ResourcesByApplication (id : ResourceID)
  | ListResources (id : ResourceID)
  | GetResource (id : ResourceID)
  | UpdateResource (id : ResourceID) (body : Bytes)
  | DeleteResource (id : ResourceID)
  | GetOperation (id : ResourceID)
  | ListSecrets (input : ListSecretsInput)
  deriving DecidableEq, Repr

/-- What the resource provider returns for a call. -/
def ResourceProvider.result (rp : ResourceProvider) : Call → Except GoError rest.Response
  | .ListApplications id => rp.ListApplications id
  | .GetApplication id => rp.GetApplication id
  | .UpdateApplication id body => rp.UpdateApplication id body
  | .DeleteApplication id => rp.DeleteApplication id
  | .ListAllV3ResourcesByApplication id => rp.ListAllV3ResourcesByApplication id
  | .ListResources id => rp.ListResources id
  | .GetResource id => rp.GetResource id
  | .UpdateResource id body => rp.UpdateResource id body
  | .DeleteResource id => rp.DeleteResource id
  | .GetOperation id => rp.GetOperation id
  | .ListSecrets input => rp.ListSecrets input

end resourceproviderv3

namespace handlerv3

open azresources schemav3 armerrors resourceproviderv3

/-- The handler struct: the resource provider and the validator factory. -/
structure handler where
  rp : ResourceProvider
  validatorFactory : String → Except GoError Validator

/-- The request as the handler reads it: the URL path and the outcome of
reading the whole body (ioutil.ReadAll). -/
structure Request where
  Path : String
  Body : Except GoError Bytes

/-- Collaborators of the handler declared in other packages: the resource id
parser (it returns an id and possibly an error), the outcome of writing a
response (Apply: nil or an error), the constant armerrors.Invalid, and
json.Unmarshal into a ListSecretsInput. -/
structure World where
  Parse : String → ResourceID × Option GoError
  Apply : rest.Response → Option GoError
  Invalid : String
  Unmarshal : Bytes → Except GoError ListSecretsInput

/-- Observable effect of a handler. -/
inductive Event where
  | LogInfo (msg : String) (args : List String)
  | LogError (err : GoError) (msg : String)
  | ValidateJSON (body : Bytes)
  | RP (call : Call)
  | Apply (response : rest.Response)
  | WriteHeader (status : Nat)
  deriving Repr

/-- What a handler did: its effects in order, and the panic that ended it, if any. -/
structure Outcome where
  events : List Event
  panic : Option Panic
  deriving Repr

/-- Text of fmt.Sprintf("error writing marshaled %T bytes to output", body). -/
def writeFailureText : String :=
  "error writing marshaled armerrors.ErrorResponse bytes to output"

/-- Apply a response built by the handler itself; a write failure cannot be
recovered: the status 500 is written and the failure logged. -/
def applyOwn (W : World) (response : rest.Response) : List Event :=
  match W.Apply response with
  | none => [.Apply response]
  | some err => [.Apply response, .WriteHeader 500, .LogError err writeFailureText]

/-- Message of the sub-error built for one validation error (the loop body of
validationError). -/
def detailMessage (err : ValidationError) : String :=
  match err.JSONError with
  | some jsonError => err.Message ++ ": " ++ jsonError.text
  | none => err.Position ++ ": " ++ err.Message

/-- Assignment `body.Error.Details[i].Message = msg`. -/
def setDetailMessage (body : ErrorResponse) (i : Nat) (msg : String) : ErrorResponse :=
  { body with Error := { body.Error with
      Details := List.modify (fun d => { d with Message := msg }) i body.Error.Details } }

/-- The payload built by validationError: Details is made with one zero entry
per validation error, and the loop then fills in each entry's Message. -/
def validationErrorBody (W : World) (validationErrs : List ValidationError) : ErrorResponse :=
  let body : ErrorResponse :=
    { Error := { Code := W.Invalid, Message := "Validation error",
                 Details := List.replicate validationErrs.length ErrorDetails.zero } }
  validationErrs.enum.foldl (fun body p => setDetailMessage body p.1 (detailMessage p.2)) body

/-- The function validationError. -/
def validationError (W : World) (validationErrs : List ValidationError) : List Event :=
  applyOwn W (rest.NewBadRequestARMResponse (validationErrorBody W validationErrs))

/-- The payload built by badRequest. -/
def badRequestBody (W : World) (err : GoError) : ErrorResponse :=
  { Error := { Code := W.Invalid, Message := err.text, Details := [] } }

/-- The function badRequest. -/
def badRequest (W : World) (err : GoError) : List Event :=
  applyOwn W (rest.NewBadRequestARMResponse (badRequestBody W err))

/-- The payload built by internalServerError: only Message is given, so Code
keeps its zero value. -/
def internalServerErrorBody (err : GoError) : ErrorResponse :=
  { Error := { Code := "", Message := err.text, Details := [] } }

/-- The function internalServerError: responds with an HTTP 500. -/
def internalServerError (W : World) (err : GoError) : List Event :=
  .LogError err "unhandled error" ::
    applyOwn W (rest.NewInternalServerErrorARMResponse (internalServerErrorBody err))

/-- The function readJSONBody: a read failure is wrapped by fmt.Errorf. -/
def readJSONBody (req : Request) : Except GoError Bytes :=
  match req.Body with
  | .error err => .error ⟨"error reading request body: " ++ err.text⟩
  | .ok data => .ok data

/-- The function resourceID: a parse error is only logged, and the id returned
by the parser is passed on as it is. -/
def resourceID (W : World) (req : Request) : ResourceID × List Event :=
  match W.Parse req.Path with
  | (id, some _) => (id, [.LogInfo "URL was not a valid resource id: %v" [req.Path]])
  | (id, none) => (id, [])

/-- The method findValidator: `id.Types[len(id.Types)-1].Type` is looked up in
the validator factory; an index out of range is a runtime panic. -/
def findValidator (h : handler) (id : ResourceID) : Except Panic (Except GoError Validator) :=
  match goIndex id.Types ((id.Types.length : Int) - 1) with
  | none =>
    .error ⟨"runtime error: index out of range [" ++ toString ((id.Types.length : Int) - 1) ++ "]"⟩
  | some segment => .ok (h.validatorFactory segment.Type_)

/-- The tail shared by every handler method once the provider was called:
a Go error goes to internalServerError, a response is applied, and a failure
of that Apply goes to internalServerError too. -/
def respond (W : World) (result : Except GoError rest.Response) : List Event :=
  match result with
  | .error err => internalServerError W err
  | .ok response =>
    match W.Apply response with
    | some err => .Apply response :: internalServerError W err
    | none => [.Apply response]

/-- The method ListApplications. -/
def ListApplications (h : handler) (W : World) (req : Request) : Outcome :=
  let (id, log) := resourceID W req
  ⟨log ++ .RP (.ListApplications id) :: respond W (h.rp.ListApplications id), none⟩

/-- The method GetApplication. -/
def GetApplication (h : handler) (W : World) (req : Request) : Outcome :=
  let (id, log) := resourceID W req
  ⟨log ++ .RP (.GetApplication id) :: respond W (h.rp.GetApplication id), none⟩

/-- The method UpdateApplication. -/
def UpdateApplication (h : handler) (W : World) (req : Request) : Outcome :=
  match readJSONBody req with
  | .error err => ⟨badRequest W err, none⟩
  | .ok body =>
    let (id, log) := resourceID W req
    match findValidator h id with
    | .error p => ⟨log, some p⟩
    | .ok (.error err) => ⟨log ++ badRequest W err, none⟩
    | .ok (.ok validator) =>
      let validationErrs := validator.ValidateJSON body
      if validationErrs.length > 0 then
        ⟨log ++ .ValidateJSON body :: validationError W validationErrs, none⟩
      else
        ⟨log ++ .ValidateJSON body :: .RP (.UpdateApplication id body) ::
          respond W (h.rp.UpdateApplication id body), none⟩

/-- The method DeleteApplication. -/
def DeleteApplication (h : handler) (W : World) (req : Request) : Outcome :=
  let (id, log) := resourceID W req
  ⟨log ++ .RP (.DeleteApplication id) :: respond W (h.rp.DeleteApplication id), none⟩

/-- The method ListAllV3ResourcesByApplication. -/
def ListAllV3ResourcesByApplication (h : handler) (W : World) (req : Request) : Outcome :=
  let (id, log) := resourceID W req
  ⟨log ++ .RP (.ListAllV3ResourcesByApplication id) ::
    respond W (h.rp.ListAllV3ResourcesByApplication id), none⟩

/-- The method ListResources. -/
def ListResources (h : handler) (W : World) (req : Request) : Outcome :=
  let (id, log) := resourceID W req
  ⟨log ++ .RP (.ListResources id) :: respond W (h.rp.ListResources id), none⟩

/-- The method GetResource. -/
def GetResource (h : handler) (W : World) (req : Request) : Outcome :=
  let (id, log) := resourceID W req
  ⟨log ++ .RP (.GetResource id) :: respond W (h.rp.GetResource id), none⟩

/-- The method UpdateResource. -/
def UpdateResource (h : handler) (W : World) (req : Request) : Outcome :=
  match readJSONBody req with
  | .error err => ⟨badRequest W err, none⟩
  | .ok body =>
    let (id, log) := resourceID W req
    match findValidator h id with
    | .error p => ⟨log, some p⟩
    | .ok (.error err) => ⟨log ++ badRequest W err, none⟩
    | .ok (.ok validator) =>
      let validationErrs := validator.ValidateJSON body
      if validationErrs.length > 0 then
        ⟨log ++ .ValidateJSON body :: validationError W validationErrs, none⟩
      else
        ⟨log ++ .ValidateJSON body :: .RP (.UpdateResource id body) ::
          respond W (h.rp.UpdateResource id body), none⟩

/-- The method DeleteResource. -/
def DeleteResource (h : handler) (W : World) (req : Request) : Outcome :=
  let (id, log) := resourceID W req
  ⟨log ++ .RP (.DeleteResource id) :: respond W (h.rp.DeleteResource id), none⟩

/-- The method GetOperation. -/
def GetOperation (h : handler) (W : World) (req : Request) : Outcome :=
  let (id, log) := resourceID W req
  ⟨log ++ .RP (.GetOperation id) :: respond W (h.rp.GetOperation id), none⟩

/-- The method ListSecrets. -/
def ListSecrets (h : handler) (W : World) (req : Request) : Outcome :=
  match readJSONBody req with
  | .error err => ⟨badRequest W err, none⟩
  | .ok body =>
    match W.Unmarshal body with
    | .error err => ⟨badRequest W err, none⟩
    | .ok input => ⟨.RP (.ListSecrets input) :: respond W (h.rp.ListSecrets input), none⟩

/-- The eleven operations the handler serves. -/
inductive Operation where
  | ListApplications | GetApplication | UpdateApplication | DeleteApplication
  | ListAllV3ResourcesByApplication | ListResources | GetResource | UpdateResource
  | DeleteResource | GetOperation | ListSecrets
  deriving DecidableEq, Repr

/-- The handler method that serves an operation. -/
def serve : Operation → handler → World → Request → Outcome
  | .ListApplications => ListApplications
  | .GetApplication => GetApplication
  | .UpdateApplication => UpdateApplication
  | .DeleteApplication => DeleteApplication
  | .ListAllV3ResourcesByApplication => ListAllV3ResourcesByApplication
  | .ListResources => ListResources
  | .GetResource => GetResource
  | .UpdateResource => UpdateResource
  | .DeleteResource => DeleteResource
  | .GetOperation => GetOperation
  | .ListSecrets => ListSecrets

/-- The provider call an event records, if it is one. -/
def Event.call? : Event → Option Call
  | .RP call => some call
  | _ => none

/-- The response an event applies, if it is one. -/
def Event.response? : Event → Option rest.Response
  | .Apply response => some response
  | _ => none

/-- The body an event hands to a validator, if it is one. -/
def Event.validated? : Event → Option Bytes
  | .ValidateJSON body => some body
  | _ => none

/-- The error an event logs, if it is one. -/
def Event.logged? : Event → Option GoError
  | .LogError err _ => some err
  | _ => none

/-- The calls made on the resource provider, in order. -/
def providerCalls (events : List Event) : List Call := events.filterMap Event.call?

/-- The responses applied to the response writer, in order. -/
def applied (events : List Event) : List rest.Response := events.filterMap Event.response?

/-- The bodies handed to a validator, in order. -/
def validated (events : List Event) : List Bytes := events.filterMap Event.validated?

/-- The errors logged, in order. -/
def loggedErrors (events : List Event) : List GoError := events.filterMap Event.logged?

namespace sample

/-- Zero-valued resource id: what a parser hands back together with an error. -/
def noID : ResourceID := { ID := "", SubscriptionID := "", ResourceGroup := "", Types := [] }

/-- Path of a container component inside an application. -/
def webPath : String := "/Application/shop/ContainerComponent/web"

/-- The resource id of webPath: two type segments, the last one the component. -/
def webID : ResourceID :=
  { ID := webPath, SubscriptionID := "s1", ResourceGroup := "g1",
    Types := [⟨"Application", "shop"⟩, ⟨"ContainerComponent", "web"⟩] }

/-- Path of a resource whose last type has no validator. -/
def gadgetPath : String := "/Application/shop/Gadget/g"

/-- The resource id of gadgetPath. -/
def gadgetID : ResourceID :=
  { ID := gadgetPath, SubscriptionID := "s1", ResourceGroup := "g1",
    Types := [⟨"Application", "shop"⟩, ⟨"Gadget", "g"⟩] }

/-- A parser that knows the two paths above and rejects every other path. -/
def parse (path : String) : ResourceID × Option GoError :=
  if path = webPath then (webID, none)
  else if path = gadgetPath then (gadgetID, none)
  else (noID, some ⟨"not a valid resource id"⟩)

/-- A validation error about a field of the document. -/
def nameMissing : ValidationError :=
  { Position := "(root)", Message := "name is required", JSONError := none }

/-- A validation error for a body that is not JSON. -/
def notJSON : ValidationError :=
  { Position := "(root).name", Message := "invalid JSON", JSONError := some ⟨"unexpected EOF"⟩ }

/-- A validator that rejects the empty body and accepts every other body. -/
def validator : Validator :=
  { ValidateJSON := fun body => if body = [] then [nameMissing] else [] }

/-- A validator factory that knows one resource type. -/
def factory (resourceType : String) : Except GoError Validator :=
  if resourceType = "ContainerComponent" then .ok validator
  else .error ⟨"no validator for the resource type"⟩

/-- A resource provider whose store is down for GetOperation and that answers
200 to every other call. -/
def provider : ResourceProvider :=
  { ListApplications := fun _ => .ok (.Other 200 [])
    GetApplication := fun _ => .ok (.Other 200 [])
    UpdateApplication := fun _ _ => .ok (.Other 200 [])
    DeleteApplication := fun _ => .ok (.Other 200 [])
    ListAllV3ResourcesByApplication := fun _ => .ok (.Other 200 [])
    ListResources := fun _ => .ok (.Other 200 [])
    GetResource := fun _ => .ok (.Other 200 [])
    UpdateResource := fun _ _ => .ok (.Other 200 [])
    DeleteResource := fun _ => .ok (.Other 200 [])
    GetOperation := fun _ => .error ⟨"db failure"⟩
    ListSecrets := fun _ => .ok (.Other 200 []) }

/-- A world in which every write succeeds and the one-byte body [1] decodes. -/
def world : World :=
  { Parse := parse
    Apply := fun _ => none
    Invalid := "BadRequest"
    Unmarshal := fun body =>
      if body = [1] then .ok ⟨"target"⟩ else .error ⟨"unexpected end of JSON input"⟩ }

/-- The handler over the sample provider and factory. -/
def theHandler : handler := { rp := provider, validatorFactory := factory }

/-- A resource provider whose store is down: every call returns the same Go
error. -/
def downProvider : ResourceProvider :=
  { ListApplications := fun _ => .error ⟨"db failure"⟩
    GetApplication := fun _ => .error ⟨"db failure"⟩
    UpdateApplication := fun _ _ => .error ⟨"db failure"⟩
    DeleteApplication := fun _ => .error ⟨"db failure"⟩
    ListAllV3ResourcesByApplication := fun _ => .error ⟨"db failure"⟩
    ListResources := fun _ => .error ⟨"db failure"⟩
    GetResource := fun _ => .error ⟨"db failure"⟩
    UpdateResource := fun _ _ => .error ⟨"db failure"⟩
    DeleteResource := fun _ => .error ⟨"db failure"⟩
    GetOperation := fun _ => .error ⟨"db failure"⟩
    ListSecrets := fun _ => .error ⟨"db failure"⟩ }

/-- The handler over the provider whose store is down. -/
def downHandler : handler := { rp := downProvider, validatorFactory := factory }

end sample

end handlerv3

namespace create

/-- The part of workspaces.Workspace the runner reads and writes. -/
structure Workspace where
  Name : String
  Scope : String
  deriving DecidableEq, Repr

/-- The cobra command as the runner sees it: the positional arguments and the
lookup of a string flag (pflag GetString: a value and possibly an error). -/
structure Command where
  Args : List String
  GetString : String → String × Option GoError

/-- Kubernetes compute of an environment (corerp.KubernetesCompute). -/
structure KubernetesCompute where
  Namespace : Option String
  deriving DecidableEq, Repr

/-- Properties of an environment (corerp.EnvironmentProperties). -/
structure EnvironmentProperties where
  Compute : Option KubernetesCompute
  deriving DecidableEq, Repr

/-- The clients.ApplicationsManagementClient methods the runner calls; each
gives nil or an error (the group that ShowUCPGroup returns is dropped). -/
structure Client where
  ShowUCPGroup : String → String → String → Option GoError
  CreateEnvironment : String → String → EnvironmentProperties → Option GoError

/-- Collaborators of the runner declared in other packages. Functions that in
Go return a value and an error return the pair here, because the runner stores
the value before it looks at the error. ScopeID is the parsed scope
(resources.ID); Quote is the rendering of the verb %q. -/
structure Deps (ScopeID : Type) where
  RequireWorkspace : Command → Except GoError Workspace
  RequireEnvironmentNameArgs : Command → List String → Workspace → String × Option GoError
  RequireScope : Command → Workspace → String × Option GoError
  CreateApplicationsManagementClient : Workspace → Except GoError Client
  Parse : String → Except GoError ScopeID
  FindScope : ScopeID → String → String
  ResourceGroupsSegment : String
  Is404Error : Option GoError → Bool
  Quote : String → String
  ValidateNamespace : String → Option GoError
  LocationGlobal : String

/-- Fields of the Runner struct that Validate and Run assign or read; a nil
Workspace pointer is none. -/
structure Runner where
  Workspace : Option Workspace
  EnvironmentName : String
  ResourceGroupName : String
  Namespace : String
  deriving DecidableEq, Repr

/-- Observable effect of the runner. -/
inductive Event where
  | LogInfo (format : String) (args : List String)
  | ShowUCPGroup (planeType planeName resourceGroupName : String)
  | ValidateNamespace (ns : String)
  | CreateEnvironment (name location : String) (properties : EnvironmentProperties)
  deriving DecidableEq, Repr

/-- What a runner method did: the runner afterwards, the error returned (nil
is none), and the effects in order. -/
structure Result where
  runner : Runner
  err : Option GoError
  events : List Event
  deriving DecidableEq, Repr

/-- The error made by clierrors.Message for
"Resource group %q could not be found.". -/
def groupNotFound {ScopeID : Type} (D : Deps ScopeID) (name : String) : GoError :=
  ⟨"Resource group " ++ D.Quote name ++ " could not be found."⟩

/-- The method Runner.Validate. -/
def Validate {ScopeID : Type} (D : Deps ScopeID) (r : Runner) (cmd : Command)
    (args : List String) : Result :=
  match D.RequireWorkspace cmd with
  | .error err => ⟨r, some err, []⟩
  | .ok workspace =>
    let r := { r with Workspace := some workspace }
    match D.RequireEnvironmentNameArgs cmd args workspace with
    | (name, some err) => ⟨{ r with EnvironmentName := name }, some err, []⟩
    | (name, none) =>
      let r := { r with EnvironmentName := name }
      match D.RequireScope cmd workspace with
      | (scope, some err) =>
        ⟨{ r with Workspace := some { workspace with Scope := scope } }, some err, []⟩
      | (scope, none) =>
        let workspace := { workspace with Scope := scope }
        let r := { r with Workspace := some workspace }
        match cmd.GetString "namespace" with
        | (ns, some err) => ⟨{ r with Namespace := ns }, some err, []⟩
        | (ns, none) =>
          let r := { r with Namespace := if ns = "" then r.EnvironmentName else ns }
          match D.CreateApplicationsManagementClient workspace with
          | .error err => ⟨r, some err, []⟩
          | .ok client =>
            match D.Parse workspace.Scope with
            | .error err => ⟨r, some err, []⟩
            | .ok scopeId =>
              let r := { r with ResourceGroupName := D.FindScope scopeId D.ResourceGroupsSegment }
              let err := client.ShowUCPGroup "radius" "local" r.ResourceGroupName
              let shown := Event.ShowUCPGroup "radius" "local" r.ResourceGroupName
              if D.Is404Error err then
                ⟨r, some (groupNotFound D r.ResourceGroupName), [shown]⟩
              else
                match err with
                | some err => ⟨r, some err, [shown]⟩
                | none =>
                  match D.ValidateNamespace r.Namespace with
                  | some err => ⟨r, some err, [shown, .ValidateNamespace r.Namespace]⟩
                  | none => ⟨r, none, [shown, .ValidateNamespace r.Namespace]⟩

/-- The method Runner.Run; dereferencing a nil Workspace is a runtime panic. -/
def Run {ScopeID : Type} (D : Deps ScopeID) (r : Runner) : Except Panic Result :=
  let start := Event.LogInfo "Creating Environment..." []
  match r.Workspace with
  | none => .error ⟨"runtime error: invalid memory address or nil pointer dereference"⟩
  | some workspace =>
    match D.CreateApplicationsManagementClient workspace with
    | .error err => .ok ⟨r, some err, [start]⟩
    | .ok client =>
      let envProperties : EnvironmentProperties :=
        { Compute := some { Namespace := some r.Namespace } }
      let created := Event.CreateEnvironment r.EnvironmentName D.LocationGlobal envProperties
      match client.CreateEnvironment r.EnvironmentName D.LocationGlobal envProperties with
      | some err => .ok ⟨r, some err, [start, created]⟩
      | none =>
        .ok ⟨r, none, [start, created,
          .LogInfo "Successfully created environment %q in resource group %q"
            [r.EnvironmentName, r.ResourceGroupName]]⟩

namespace sample

/-- A workspace whose scope is the resource group default. -/
def workspace : Workspace :=
  { Name := "default", Scope := "/planes/radius/local/resourceGroups/default" }

/-- The command `rad env create prod` with the given value of the namespace flag. -/
def command (flag : String) : Command :=
  { Args := ["prod"]
    GetString := fun name =>
      if name = "namespace" then (flag, none)
      else ("", some ⟨"flag accessed but not defined: " ++ name⟩) }

/-- A client that finds the group default only and creates every environment. -/
def client : Client :=
  { ShowUCPGroup := fun _ _ resourceGroupName =>
      if resourceGroupName = "default" then none else some ⟨"404 Not Found"⟩
    CreateEnvironment := fun _ _ _ => none }

/-- Collaborators over the sample workspace; a parsed scope is its list of
scope segments, kind and name. -/
def deps : Deps (List (String × String)) :=
  { RequireWorkspace := fun _ => .ok workspace
    RequireEnvironmentNameArgs := fun _ args _ =>
      match args with
      | name :: _ => (name, none)
      | [] => ("", some ⟨"no environment name provided"⟩)
    RequireScope := fun _ ws => (ws.Scope, none)
    CreateApplicationsManagementClient := fun _ => .ok client
    Parse := fun scope =>
      if scope = "/planes/radius/local/resourceGroups/default" then
        .ok [("radius", "local"), ("resourcegroups", "default")]
      else .error ⟨"not a valid scope"⟩
    FindScope := fun scopeId kind => ((scopeId.find? (fun p => p.1 = kind)).map Prod.snd).getD ""
    ResourceGroupsSegment := "resourcegroups"
    Is404Error := fun err => err = some ⟨"404 Not Found"⟩
    Quote := fun name => "\"" ++ name ++ "\""
    ValidateNamespace := fun _ => none
    LocationGlobal := "global" }

/-- The runner as NewRunner leaves it. -/
def runner : Runner :=
  { Workspace := none, EnvironmentName := "", ResourceGroupName := "", Namespace := "" }

/-- A client whose every group lookup fails with an error that is not a 404. -/
def downClient : Client :=
  { ShowUCPGroup := fun _ _ _ => some ⟨"connection refused"⟩
    CreateEnvironment := fun _ _ _ => none }

/-- Collaborators whose workspace has the resource group lost in its scope,
over the given client. -/
def lostDeps (client : Client) : Deps (List (String × String)) :=
  { deps with
    RequireWorkspace := fun _ =>
      .ok { Name := "lost", Scope := "/planes/radius/local/resourceGroups/lost" }
    CreateApplicationsManagementClient := fun _ => .ok client
    Parse := fun scope =>
      if scope = "/planes/radius/local/resourceGroups/lost" then
        .ok [("radius", "local"), ("resourcegroups", "lost")]
      else .error ⟨"not a valid scope"⟩ }

end sample

end create

namespace engine

/-- Modelled from the spec: the states of an Operation Record (section 4.2);
the Operation Engine has no code in the files at hand. -/
inductive Status where
  | Accepted | Provisioning | Succeeded | Failed | Canceled
  deriving DecidableEq, Repr

/-- Modelled from the spec: Succeeded, Failed and Canceled are the terminal
states; Accepted and Provisioning are in flight. -/
def Status.terminal : Status → Bool
  | .Succeeded => true
  | .Failed => true
  | .Canceled => true
  | .Accepted => false
  | .Provisioning => false

/-- Modelled from the spec: the state machine
Accepted → Provisioning → Succeeded | Failed, with Accepted → Canceled and
Provisioning → Canceled; terminal states are absorbing. -/
def Status.next : Status → Status → Bool
  | .Accepted, .Provisioning => true
  | .Provisioning, .Succeeded => true
  | .Provisioning, .Failed => true
  | .Accepted, .Canceled => true
  | .Provisioning, .Canceled => true
  | _, _ => false

/-- Modelled from the spec: the kind of an operation. -/
inductive Kind where
  | create | update | delete
  deriving DecidableEq, Repr

/-- Modelled from the spec: the Operation Record (section 3), with the
attributes that admission and the state machine read or write. -/
structure OperationRecord where
  operationID : Nat
  target : String
  kind : Kind
  status : Status
  retryCount : Nat
  deriving DecidableEq, Repr

/-- Modelled from the spec: the records the Operation Engine keeps, and the
next operation id it hands out. -/
structure Engine where
  records : List OperationRecord
  nextID : Nat
  deriving DecidableEq, Repr

/-- Modelled from the spec: the Operation Engine before any request, with no
Operation Record. -/
def Engine.empty : Engine := { records := [], nextID := 0 }

/-- Modelled from the spec: the non-terminal (in flight) Operation Records of a
ResourceID. -/
def nonTerminal (e : Engine) (resourceID : String) : List OperationRecord :=
  e.records.filter (fun r => r.target == resourceID && !r.status.terminal)

/-- Modelled from the spec: an operation is already in flight for the
ResourceID, the test Enqueue makes at admission. -/
def inFlight (e : Engine) (resourceID : String) : Bool :=
  e.records.any (fun r => r.target == resourceID && !r.status.terminal)

/-- Modelled from the spec: the conflict error with which Enqueue rejects. -/
inductive EngineError where
  | conflict
  deriving DecidableEq, Repr

/-- Modelled from the spec: Enqueue rejects with a conflict error if an
operation is already in flight for the same ResourceID; otherwise it creates an
Operation Record in Accepted and returns its operation id. -/
def Enqueue (e : Engine) (kind : Kind) (resourceID : String) :
    Except EngineError (Nat × Engine) :=
  if inFlight e resourceID then .error .conflict
  else .ok (e.nextID,
    { records := e.records ++
        [{ operationID := e.nextID, target := resourceID, kind := kind,
           status := .Accepted, retryCount := 0 }],
      nextID := e.nextID + 1 })

/-- Modelled from the spec: a worker or a cancellation moves one operation
along an edge of the state machine; a move that is not an edge changes nothing. -/
def move (e : Engine) (operationID : Nat) (dest : Status) : Engine :=
  { e with records := e.records.map (fun r =>
      if r.operationID = operationID ∧ r.status.next dest = true then { r with status := dest }
      else r) }

/-- Modelled from the spec: a retry of a transient failure keeps the operation
in Provisioning and counts the attempt. -/
def retry (e : Engine) (operationID : Nat) : Engine :=
  { e with records := e.records.map (fun r =>
      if r.operationID = operationID ∧ r.status = .Provisioning then
        { r with retryCount := r.retryCount + 1 }
      else r) }

/-- Modelled from the spec: what can happen to the Operation Engine: a request
is enqueued, an operation moves to another state, or an attempt is retried. -/
inductive Action where
  | enqueue (kind : Kind) (resourceID : String)
  | move (operationID : Nat) (dest : Status)
  | retry (operationID : Nat)
  deriving DecidableEq, Repr

/-- Modelled from the spec: one atomic step of the Operation Engine; a rejected
Enqueue leaves it as it was. -/
def step (e : Engine) : Action → Engine
  | .enqueue kind resourceID =>
    match Enqueue e kind resourceID with
    | .ok (_, e') => e'
    | .error _ => e
  | .move operationID dest => move e operationID dest
  | .retry operationID => retry e operationID

/-- Modelled from the spec: the Operation Engine after a history of actions,
from the empty engine. -/
def run (history : List Action) : Engine := history.foldl step Engine.empty

end engine

end Radius

/-! ## The request handler -/

namespace Radius

namespace handlerv3

open azresources schemav3 armerrors resourceproviderv3

/-- No event, no provider call. -/
theorem providerCalls_nil : providerCalls [] = [] := rfl

/-- No event, no applied response. -/
theorem applied_nil : applied [] = [] := rfl

/-- The provider calls of a concatenation. -/
theorem providerCalls_append (a b : List Event) :
    providerCalls (a ++ b) = providerCalls a ++ providerCalls b := by
  simp [providerCalls]

/-- The provider calls of a list of events that starts with a given event. -/
theorem providerCalls_cons (e : Event) (es : List Event) :
    providerCalls (e :: es) = (Event.call? e).toList ++ providerCalls es := by
  cases e <;> simp [providerCalls, Event.call?]

/-- The applied responses of a concatenation. -/
theorem applied_append (a b : List Event) : applied (a ++ b) = applied a ++ applied b := by
  simp [applied]

/-- The applied responses of a list of events that starts with a given event. -/
theorem applied_cons (e : Event) (es : List Event) :
    applied (e :: es) = (Event.response? e).toList ++ applied es := by
  cases e <;> simp [applied, Event.response?]

/-- The validated bodies of a concatenation. -/
theorem validated_append (a b : List Event) :
    validated (a ++ b) = validated a ++ validated b := by
  simp [validated]

/-- The validated bodies of a list of events that starts with a given event. -/
theorem validated_cons (e : Event) (es : List Event) :
    validated (e :: es) = (Event.validated? e).toList ++ validated es := by
  cases e <;> simp [validated, Event.validated?]

/-- The logged errors of a concatenation. -/
theorem loggedErrors_append (a b : List Event) :
    loggedErrors (a ++ b) = loggedErrors a ++ loggedErrors b := by
  simp [loggedErrors]

/-- The logged errors of a list of events that starts with a given event. -/
theorem loggedErrors_cons (e : Event) (es : List Event) :
    loggedErrors (e :: es) = (Event.logged? e).toList ++ loggedErrors es := by
  cases e <;> simp [loggedErrors, Event.logged?]

/-- The log written by resourceID holds no provider call, no applied response,
no validation and no logged error. -/
theorem resourceID_log (W : World) (req : Request) :
    providerCalls (resourceID W req).2 = [] ∧ applied (resourceID W req).2 = [] ∧
    validated (resourceID W req).2 = [] ∧ loggedErrors (resourceID W req).2 = [] := by
  unfold resourceID
  split <;> simp [providerCalls, applied, validated, loggedErrors, Event.call?,
    Event.response?, Event.validated?, Event.logged?]

/-- A response of the handler's own is applied once, and applying it calls
neither the provider nor a validator. -/
theorem applyOwn_effects (W : World) (response : rest.Response) :
    providerCalls (applyOwn W response) = [] ∧ applied (applyOwn W response) = [response] ∧
    validated (applyOwn W response) = [] := by
  unfold applyOwn
  split <;> simp [providerCalls, applied, validated, Event.call?, Event.response?,
    Event.validated?]

/-- The function internalServerError logs the error and applies the HTTP 500
response that carries the error's text. -/
theorem internalServerError_effects (W : World) (err : GoError) :
    providerCalls (internalServerError W err) = [] ∧
    applied (internalServerError W err) =
      [rest.NewInternalServerErrorARMResponse (internalServerErrorBody err)] ∧
    validated (internalServerError W err) = [] ∧
    err ∈ loggedErrors (internalServerError W err) := by
  obtain ⟨h1, h2, h3⟩ := applyOwn_effects W
    (rest.NewInternalServerErrorARMResponse (internalServerErrorBody err))
  simp only [providerCalls, applied, validated] at h1 h2 h3
  simp [internalServerError, providerCalls, applied, validated, loggedErrors, Event.call?,
    Event.response?, Event.validated?, Event.logged?, h1, h2, h3]

/-- The tail of a handler never calls the provider or a validator. -/
theorem respond_quiet (W : World) (result : Except GoError rest.Response) :
    providerCalls (respond W result) = [] ∧ validated (respond W result) = [] := by
  unfold respond
  split
  · exact ⟨(internalServerError_effects W _).1, (internalServerError_effects W _).2.2.1⟩
  · have h := internalServerError_effects W
    simp only [providerCalls, validated] at h
    split <;> simp [providerCalls, validated, Event.call?, Event.validated?, h]

/-- When the provider returned a Go error, the tail of a handler is
internalServerError on that error. -/
theorem respond_error (W : World) (err : GoError) :
    respond W (.error err) = internalServerError W err := rfl

/-- What UpdateResource does once the body is read and the validator found. -/
theorem UpdateResource_validated (h : handler) (W : World) (req : Request) (body : Bytes)
    (validator : Validator) (hbody : req.Body = .ok body)
    (hfound : findValidator h (resourceID W req).1 = .ok (.ok validator)) :
    UpdateResource h W req =
      if (validator.ValidateJSON body).length > 0 then
        ⟨(resourceID W req).2 ++ .ValidateJSON body ::
          validationError W (validator.ValidateJSON body), none⟩
      else
        ⟨(resourceID W req).2 ++ .ValidateJSON body ::
          .RP (.UpdateResource (resourceID W req).1 body) ::
          respond W (h.rp.UpdateResource (resourceID W req).1 body), none⟩ := by
  rcases hres : resourceID W req with ⟨id, log⟩
  rw [hres] at hfound
  simp only [UpdateResource, readJSONBody, hbody, hres, hfound]

/-- What UpdateApplication does once the body is read and the validator found. -/
theorem UpdateApplication_validated (h : handler) (W : World) (req : Request) (body : Bytes)
    (validator : Validator) (hbody : req.Body = .ok body)
    (hfound : findValidator h (resourceID W req).1 = .ok (.ok validator)) :
    UpdateApplication h W req =
      if (validator.ValidateJSON body).length > 0 then
        ⟨(resourceID W req).2 ++ .ValidateJSON body ::
          validationError W (validator.ValidateJSON body), none⟩
      else
        ⟨(resourceID W req).2 ++ .ValidateJSON body ::
          .RP (.UpdateApplication (resourceID W req).1 body) ::
          respond W (h.rp.UpdateApplication (resourceID W req).1 body), none⟩ := by
  rcases hres : resourceID W req with ⟨id, log⟩
  rw [hres] at hfound
  simp only [UpdateApplication, readJSONBody, hbody, hres, hfound]

/-- C1: in UpdateResource and UpdateApplication, once the body is read and the
validator found, a non-empty list of validation errors is answered with the 400
bad-request validation payload and the provider is not called; the provider is
called (once, with the id and the body) exactly when the list is empty. -/
theorem validation_errors_stop_update (h : handler) (W : World) (req : Request)
    (body : Bytes) (validator : Validator) (hbody : req.Body = .ok body)
    (hfound : findValidator h (resourceID W req).1 = .ok (.ok validator)) :
    (validator.ValidateJSON body ≠ [] →
      (applied (UpdateResource h W req).events =
          [rest.NewBadRequestARMResponse (validationErrorBody W (validator.ValidateJSON body))] ∧
        providerCalls (UpdateResource h W req).events = []) ∧
      (applied (UpdateApplication h W req).events =
          [rest.NewBadRequestARMResponse (validationErrorBody W (validator.ValidateJSON body))] ∧
        providerCalls (UpdateApplication h W req).events = []) ∧
      (rest.NewBadRequestARMResponse
        (validationErrorBody W (validator.ValidateJSON body))).status = 400) ∧
    (providerCalls (UpdateResource h W req).events ≠ [] → validator.ValidateJSON body = []) ∧
    (providerCalls (UpdateApplication h W req).events ≠ [] → validator.ValidateJSON body = []) ∧
    (validator.ValidateJSON body = [] →
      providerCalls (UpdateResource h W req).events =
          [.UpdateResource (resourceID W req).1 body] ∧
      providerCalls (UpdateApplication h W req).events =
          [.UpdateApplication (resourceID W req).1 body]) := by
  obtain ⟨l1, l2, -, -⟩ := resourceID_log W req
  obtain ⟨a1, a2, -⟩ := applyOwn_effects W
    (rest.NewBadRequestARMResponse (validationErrorBody W (validator.ValidateJSON body)))
  have r1 := (respond_quiet W (h.rp.UpdateResource (resourceID W req).1 body)).1
  have r2 := (respond_quiet W (h.rp.UpdateApplication (resourceID W req).1 body)).1
  rw [UpdateResource_validated h W req body validator hbody hfound,
    UpdateApplication_validated h W req body validator hbody hfound]
  by_cases hv : validator.ValidateJSON body = []
  · simp [hv, providerCalls_append, providerCalls_cons, l1, r1, r2, Event.call?]
  · have hpos : (validator.ValidateJSON body).length > 0 := List.length_pos.mpr hv
    simp [hv, hpos, providerCalls_append, providerCalls_cons, applied_append, applied_cons,
      validationError, l1, l2, a1, a2, Event.call?, Event.response?]
    rfl

/-- The function badRequest applies one response, the 400 bad-request payload
of the error, and calls neither the provider nor a validator. -/
theorem badRequest_effects (W : World) (err : GoError) :
    providerCalls (badRequest W err) = [] ∧
    applied (badRequest W err) = [rest.NewBadRequestARMResponse (badRequestBody W err)] ∧
    validated (badRequest W err) = [] :=
  applyOwn_effects W (rest.NewBadRequestARMResponse (badRequestBody W err))

/-- Every handler method either never reaches the provider, or runs as: some
effects without a provider call or an applied response, then one provider
call, then the shared tail on what that call returned; and it does not panic
once the provider is reached. -/
theorem serve_shape (op : Operation) (h : handler) (W : World) (req : Request) :
    providerCalls (serve op h W req).events = [] ∨
    ∃ log call, providerCalls log = [] ∧ applied log = [] ∧
      serve op h W req = ⟨log ++ .RP call :: respond W (h.rp.result call), none⟩ := by
  obtain ⟨l1, l2, -, -⟩ := resourceID_log W req
  rcases hres : resourceID W req with ⟨id, log⟩
  rw [hres] at l1 l2
  simp only at l1 l2
  cases op
  case ListApplications =>
    exact Or.inr ⟨log, .ListApplications id, l1, l2, by
      simp [serve, ListApplications, hres, ResourceProvider.result]⟩
  case GetApplication =>
    exact Or.inr ⟨log, .GetApplication id, l1, l2, by
      simp [serve, GetApplication, hres, ResourceProvider.result]⟩
  case DeleteApplication =>
    exact Or.inr ⟨log, .DeleteApplication id, l1, l2, by
      simp [serve, DeleteApplication, hres, ResourceProvider.result]⟩
  case ListAllV3ResourcesByApplication =>
    exact Or.inr ⟨log, .ListAllV3ResourcesByApplication id, l1, l2, by
      simp [serve, ListAllV3ResourcesByApplication, hres, ResourceProvider.result]⟩
  case ListResources =>
    exact Or.inr ⟨log, .ListResources id, l1, l2, by
      simp [serve, ListResources, hres, ResourceProvider.result]⟩
  case GetResource =>
    exact Or.inr ⟨log, .GetResource id, l1, l2, by
      simp [serve, GetResource, hres, ResourceProvider.result]⟩
  case DeleteResource =>
    exact Or.inr ⟨log, .DeleteResource id, l1, l2, by
      simp [serve, DeleteResource, hres, ResourceProvider.result]⟩
  case GetOperation =>
    exact Or.inr ⟨log, .GetOperation id, l1, l2, by
      simp [serve, GetOperation, hres, ResourceProvider.result]⟩
  case ListSecrets =>
    simp only [serve, ListSecrets]
    split
    · exact Or.inl (badRequest_effects W _).1
    · split
      · exact Or.inl (badRequest_effects W _).1
      · rename_i input _
        exact Or.inr ⟨[], .ListSecrets input, rfl, rfl, by simp [ResourceProvider.result]⟩
  case UpdateApplication =>
    simp only [serve, UpdateApplication, hres]
    split
    · exact Or.inl (badRequest_effects W _).1
    · rename_i body _
      split
      · exact Or.inl l1
      · exact Or.inl (by simp [providerCalls_append, l1, (badRequest_effects W _).1])
      · rename_i validator _
        split
        · refine Or.inl ?_
          simp [providerCalls_append, providerCalls_cons, l1, Event.call?, validationError,
            (applyOwn_effects W _).1]
        · refine Or.inr ⟨log ++ [.ValidateJSON body], .UpdateApplication id body, ?_, ?_, ?_⟩
          · simp [providerCalls_append, providerCalls_cons, providerCalls_nil, l1, Event.call?]
          · simp [applied_append, applied_cons, applied_nil, l2, Event.response?]
          · simp [ResourceProvider.result]
  case UpdateResource =>
    simp only [serve, UpdateResource, hres]
    split
    · exact Or.inl (badRequest_effects W _).1
    · rename_i body _
      split
      · exact Or.inl l1
      · exact Or.inl (by simp [providerCalls_append, l1, (badRequest_effects W _).1])
      · rename_i validator _
        split
        · refine Or.inl ?_
          simp [providerCalls_append, providerCalls_cons, l1, Event.call?, validationError,
            (applyOwn_effects W _).1]
        · refine Or.inr ⟨log ++ [.ValidateJSON body], .UpdateResource id body, ?_, ?_, ?_⟩
          · simp [providerCalls_append, providerCalls_cons, providerCalls_nil, l1, Event.call?]
          · simp [applied_append, applied_cons, applied_nil, l2, Event.response?]
          · simp [ResourceProvider.result]

/-- Seen from the trace: whenever a handler operation has made a call on the
resource provider and that call returns a Go error, the handler logs that
error and the one response it applies is the HTTP 500 payload of
internalServerError whose message is the error's text; nothing else is applied
and the handler does not panic. -/
theorem provider_error_is_internal_server_error (op : Operation) (h : handler) (W : World)
    (req : Request) (call : Call) (err : GoError)
    (hcall : call ∈ providerCalls (serve op h W req).events)
    (herr : h.rp.result call = .error err) :
    applied (serve op h W req).events =
      [rest.NewInternalServerErrorARMResponse (internalServerErrorBody err)] ∧
    (rest.NewInternalServerErrorARMResponse (internalServerErrorBody err)).status = 500 ∧
    (internalServerErrorBody err).Error.Message = err.text ∧
    err ∈ loggedErrors (serve op h W req).events ∧
    Event.LogError err "unhandled error" ∈ (serve op h W req).events ∧
    (serve op h W req).panic = none := by
  rcases serve_shape op h W req with hnone | ⟨log, c, l1, l2, hshape⟩
  · rw [hnone] at hcall
    exact absurd hcall (List.not_mem_nil _)
  · rw [hshape] at hcall ⊢
    obtain ⟨i1, i2, -, i4⟩ := internalServerError_effects W err
    have hc : call = c := by
      simpa [providerCalls_append, providerCalls_cons, l1, Event.call?,
        (respond_quiet W _).1] using hcall
    subst hc
    rw [herr, respond_error]
    refine ⟨?_, rfl, rfl, ?_, ?_, rfl⟩
    · simp [applied_append, applied_cons, l2, i2, Event.response?]
    · simp [loggedErrors_append, loggedErrors_cons, i4]
    · simp [internalServerError]

/-- Changing the element at index `done.length` of `done ++ x :: rest`
changes `x`. -/
theorem modify_at_length {α : Type} (f : α → α) (done : List α) (x : α) (tl : List α) :
    List.modify f done.length (done ++ x :: tl) = done ++ f x :: tl := by
  induction done with
  | nil => simp
  | cons a done ih => simp [ih]

/-- The loop of validationError, started when the first `done.length` entries
are filled: it fills the remaining zero entries, one per validation error, in
order, and leaves Code and Message as they were. -/
theorem fill_details (errs : List ValidationError) (done : List ErrorDetails)
    (code msg : String) :
    (errs.enumFrom done.length).foldl
        (fun body p => setDetailMessage body p.1 (detailMessage p.2))
        { Error := { Code := code, Message := msg,
                     Details := done ++ List.replicate errs.length ErrorDetails.zero } } =
      { Error := { Code := code, Message := msg,
                   Details := done ++ errs.map (fun e =>
                     { Code := "", Message := detailMessage e, Details := [] }) } } := by
  induction errs generalizing done with
  | nil => simp
  | cons e errs ih =>
    have hstep := ih (done ++ [{ Code := "", Message := detailMessage e, Details := [] }])
    simp only [List.length_append, List.length_singleton, List.append_assoc,
      List.singleton_append] at hstep
    simp only [List.enumFrom_cons, List.foldl_cons, List.length_cons, List.replicate_succ,
      List.map_cons, setDetailMessage, modify_at_length, ErrorDetails.zero]
    exact hstep

/-- The details of the validation payload, one per validation error, in order. -/
theorem validationErrorBody_eq (W : World) (errs : List ValidationError) :
    validationErrorBody W errs =
      { Error := { Code := W.Invalid, Message := "Validation error",
                   Details := errs.map (fun e =>
                     { Code := "", Message := detailMessage e, Details := [] }) } } := by
  have h := fill_details errs [] W.Invalid "Validation error"
  simpa [validationErrorBody, List.enum] using h

/-- C3: for a list of n validation errors the payload built by validationError
has top-level code Invalid and top-level message "Validation error", and its
list of sub-errors has exactly n entries, the i-th of which is the sub-error
built from the i-th validation error. -/
theorem validationError_payload_shape (W : World) (errs : List ValidationError) :
    (validationErrorBody W errs).Error.Code = W.Invalid ∧
    (validationErrorBody W errs).Error.Message = "Validation error" ∧
    (validationErrorBody W errs).Error.Details.length = errs.length ∧
    (∀ i : Nat, (validationErrorBody W errs).Error.Details[i]? =
      (errs[i]?).map (fun e => { Code := "", Message := detailMessage e, Details := [] })) ∧
    applied (validationError W errs) =
      [rest.NewBadRequestARMResponse (validationErrorBody W errs)] := by
  refine ⟨?_, ?_, ?_, ?_, (applyOwn_effects W _).2.1⟩ <;>
    rw [validationErrorBody_eq] <;> simp

/-- Witness of C1: an update of the sample component with the empty body,
which the sample validator rejects, is answered with the validation payload
and the provider is not called. -/
theorem validation_errors_stop_update_witness :
    applied (UpdateResource sample.theHandler sample.world ⟨sample.webPath, .ok []⟩).events =
      [rest.NewBadRequestARMResponse (validationErrorBody sample.world [sample.nameMissing])] ∧
    providerCalls
      (UpdateResource sample.theHandler sample.world ⟨sample.webPath, .ok []⟩).events = [] :=
  ((validation_errors_stop_update sample.theHandler sample.world ⟨sample.webPath, .ok []⟩ []
    sample.validator rfl rfl).1 (by decide)).1

/-- The trace view on the sample provider, whose store is down for
GetOperation: the HTTP 500 payload with the text of the provider's error. -/
theorem provider_error_is_internal_server_error_witness :
    applied (GetOperation sample.theHandler sample.world ⟨sample.webPath, .ok []⟩).events =
      [rest.NewInternalServerErrorARMResponse (internalServerErrorBody ⟨"db failure"⟩)] ∧
    (internalServerErrorBody ⟨"db failure"⟩).Error.Message = "db failure" :=
  have h := provider_error_is_internal_server_error .GetOperation sample.theHandler sample.world
    ⟨sample.webPath, .ok []⟩ (.GetOperation sample.webID) ⟨"db failure"⟩ (by decide) rfl
  ⟨h.1, h.2.2.1⟩

/-- A string is contained in every string it starts. -/
theorem contains_append_left (s t : String) : contains (s ++ t) s := by
  unfold contains
  rw [String.data_append]
  exact (List.prefix_append _ _).isInfix

/-- C4, against the claim as stated: the sub-error built for a validation error
whose JSONError is set has the message "invalid JSON: unexpected EOF", which
does not contain the error's Position "(root).name". -/
theorem position_missing_when_not_json :
    (validationErrorBody sample.world [sample.notJSON]).Error.Details.map
        (fun d => d.Message) = ["invalid JSON: unexpected EOF"] ∧
    ¬ contains "invalid JSON: unexpected EOF" sample.notJSON.Position := by
  constructor
  · rw [validationErrorBody_eq]
    decide
  · decide

/-- C4, amended: the sub-error of the i-th validation error e carries
e.Position when e.JSONError is nil (its message is e.Position, ": ",
e.Message, which contains e.Position); when e.JSONError is set its message is
e.Message, ": ", the JSON error's text. -/
theorem position_carried_without_json_error (W : World) (errs : List ValidationError)
    (i : Nat) (e : ValidationError) (hi : errs[i]? = some e) :
    ∃ d, (validationErrorBody W errs).Error.Details[i]? = some d ∧
      (e.JSONError = none →
        d.Message = e.Position ++ ": " ++ e.Message ∧ contains d.Message e.Position) ∧
      (∀ jsonError, e.JSONError = some jsonError →
        d.Message = e.Message ++ ": " ++ jsonError.text) := by
  refine ⟨{ Code := "", Message := detailMessage e, Details := [] }, ?_, ?_, ?_⟩
  · rw [validationErrorBody_eq]
    simp [hi]
  · intro hjson
    have hmsg : detailMessage e = e.Position ++ ": " ++ e.Message := by
      simp [detailMessage, hjson]
    refine ⟨hmsg, ?_⟩
    show contains (detailMessage e) e.Position
    rw [hmsg, String.append_assoc]
    exact contains_append_left _ _
  · intro jsonError hjson
    simp [detailMessage, hjson]

/-- Witness of the amended C4: the sub-error of the sample field error starts
with its Position. -/
theorem position_carried_without_json_error_witness :
    ∃ d, (validationErrorBody sample.world [sample.notJSON, sample.nameMissing]).Error.Details[1]?
        = some d ∧
      (sample.nameMissing.JSONError = none →
        d.Message = sample.nameMissing.Position ++ ": " ++ sample.nameMissing.Message ∧
        contains d.Message sample.nameMissing.Position) ∧
      (∀ jsonError, sample.nameMissing.JSONError = some jsonError →
        d.Message = sample.nameMissing.Message ++ ": " ++ jsonError.text) :=
  position_carried_without_json_error sample.world [sample.notJSON, sample.nameMissing] 1
    sample.nameMissing rfl

/-- C5, the code at the failing input: badRequest and validationError give the
top-level error the code Invalid and a message, while the payload that
internalServerError builds has the message only: its Code is the empty string,
whatever the error. -/
theorem internalServerError_code_unset (W : World) (err : GoError)
    (errs : List ValidationError) :
    (internalServerErrorBody err).Error.Code = "" ∧
    (internalServerErrorBody err).Error.Message = err.text ∧
    applied (internalServerError W err) =
      [rest.NewInternalServerErrorARMResponse (internalServerErrorBody err)] ∧
    (badRequestBody W err).Error.Code = W.Invalid ∧
    (badRequestBody W err).Error.Message = err.text ∧
    (validationErrorBody W errs).Error.Code = W.Invalid ∧
    (validationErrorBody W errs).Error.Message = "Validation error" := by
  refine ⟨rfl, rfl, (internalServerError_effects W err).2.1, rfl, rfl, ?_, ?_⟩ <;>
    rw [validationErrorBody_eq]

/-- Indexing a slice without elements at `len - 1` is out of range. -/
theorem goIndex_last_nil {α : Type} :
    goIndex ([] : List α) (((([] : List α).length : Nat) : Int) - 1) = none := by
  simp [goIndex]

/-- Indexing a non-empty slice at `len - 1` gives its last element. -/
theorem goIndex_last {α : Type} (xs : List α) (hne : xs ≠ []) :
    goIndex xs ((xs.length : Int) - 1) = some (xs.getLast hne) := by
  have hpos : 0 < xs.length := List.length_pos.mpr hne
  have hidx : ((xs.length : Int) - 1).toNat = xs.length - 1 := by omega
  have hnonneg : ¬ ((xs.length : Int) - 1 < 0) := by omega
  simp only [goIndex, hnonneg, if_false, hidx]
  rw [← List.getLast?_eq_getElem?, List.getLast?_eq_getLast _ hne]

/-- C6, the code at the failing input: when the body is read and the parser
hands back an id without type segments, UpdateResource and UpdateApplication
end in the runtime panic of findValidator (index -1 out of range); no response
is applied and the provider is not called. -/
theorem update_panics_without_type_segments (h : handler) (W : World) (req : Request)
    (body : Bytes) (hbody : req.Body = .ok body) (hid : (W.Parse req.Path).1.Types = []) :
    (UpdateResource h W req).panic = some ⟨"runtime error: index out of range [-1]"⟩ ∧
    applied (UpdateResource h W req).events = [] ∧
    providerCalls (UpdateResource h W req).events = [] ∧
    (UpdateApplication h W req).panic = some ⟨"runtime error: index out of range [-1]"⟩ ∧
    applied (UpdateApplication h W req).events = [] ∧
    providerCalls (UpdateApplication h W req).events = [] := by
  obtain ⟨l1, l2, -, -⟩ := resourceID_log W req
  have hid2 : (resourceID W req).1.Types = [] := by
    unfold resourceID
    split <;> rename_i heq <;> rw [heq] at hid <;> exact hid
  rcases hres : resourceID W req with ⟨id, log⟩
  rw [hres] at l1 l2 hid2
  simp only at l1 l2 hid2
  have hfind : findValidator h id = .error ⟨"runtime error: index out of range [-1]"⟩ := by
    simp only [findValidator, hid2, goIndex_last_nil]
    rfl
  simp [UpdateResource, UpdateApplication, readJSONBody, hbody, hres, hfind, l1, l2]

/-- Witness of C6: an update whose path the sample parser rejects. -/
theorem update_panics_without_type_segments_witness :
    (UpdateResource sample.theHandler sample.world ⟨"/not/a/resource/id", .ok [1]⟩).panic =
      some ⟨"runtime error: index out of range [-1]"⟩ ∧
    (UpdateApplication sample.theHandler sample.world ⟨"/not/a/resource/id", .ok [1]⟩).panic =
      some ⟨"runtime error: index out of range [-1]"⟩ :=
  have h := update_panics_without_type_segments sample.theHandler sample.world
    ⟨"/not/a/resource/id", .ok [1]⟩ [1] rfl (by decide)
  ⟨h.1, h.2.2.2.1⟩

/-- The validator looked up for an id with at least one type segment is the
factory's answer for the type of the last segment. -/
theorem findValidator_last (h : handler) (id : ResourceID) (hne : id.Types ≠ []) :
    findValidator h id = .ok (h.validatorFactory (id.Types.getLast hne).Type_) := by
  simp only [findValidator, goIndex_last id.Types hne]

/-- C8: for a resource id with at least one type segment, findValidator asks
the validator factory for the type of the last type segment; and when the
factory returns an error for that type, UpdateResource and UpdateApplication
(body read, id parsed from the request) apply one response, the 400
bad-request payload with code Invalid and the factory error's text as message,
hand no body to a validator and do not call the provider. -/
theorem unknown_type_is_bad_request (h : handler) (W : World) (req : Request)
    (id : ResourceID) (hne : id.Types ≠ []) :
    findValidator h id = .ok (h.validatorFactory (id.Types.getLast hne).Type_) ∧
    ∀ body err, req.Body = .ok body → (resourceID W req).1 = id →
      h.validatorFactory (id.Types.getLast hne).Type_ = .error err →
      (applied (UpdateResource h W req).events =
          [rest.NewBadRequestARMResponse (badRequestBody W err)] ∧
        validated (UpdateResource h W req).events = [] ∧
        providerCalls (UpdateResource h W req).events = [] ∧
        (UpdateResource h W req).panic = none) ∧
      (applied (UpdateApplication h W req).events =
          [rest.NewBadRequestARMResponse (badRequestBody W err)] ∧
        validated (UpdateApplication h W req).events = [] ∧
        providerCalls (UpdateApplication h W req).events = [] ∧
        (UpdateApplication h W req).panic = none) ∧
      (rest.NewBadRequestARMResponse (badRequestBody W err)).status = 400 ∧
      (badRequestBody W err).Error.Code = W.Invalid ∧
      (badRequestBody W err).Error.Message = err.text := by
  refine ⟨findValidator_last h id hne, ?_⟩
  intro body err hbody hid hfactory
  obtain ⟨l1, l2, l3, -⟩ := resourceID_log W req
  obtain ⟨b1, b2, b3⟩ := badRequest_effects W err
  have hfind : findValidator h (resourceID W req).1 = .ok (.error err) := by
    rw [hid, findValidator_last h id hne, hfactory]
  rcases hres : resourceID W req with ⟨id', log⟩
  rw [hres] at l1 l2 l3 hfind
  simp only at l1 l2 l3 hfind
  simp [UpdateResource, UpdateApplication, readJSONBody, hbody, hres, hfind,
    providerCalls_append, applied_append, validated_append, l1, l2, l3, b1, b2, b3,
    badRequestBody, rest.NewBadRequestARMResponse, rest.Response.status]

/-- Witness of C8: the sample gadget has two type segments and the sample
factory knows no validator for the last one, Gadget. -/
theorem unknown_type_is_bad_request_witness :
    findValidator sample.theHandler sample.gadgetID = .ok (sample.factory "Gadget") ∧
    applied (UpdateResource sample.theHandler sample.world ⟨sample.gadgetPath, .ok [1]⟩).events =
      [rest.NewBadRequestARMResponse
        (badRequestBody sample.world ⟨"no validator for the resource type"⟩)] ∧
    providerCalls
      (UpdateResource sample.theHandler sample.world ⟨sample.gadgetPath, .ok [1]⟩).events = [] :=
  have h := unknown_type_is_bad_request sample.theHandler sample.world
    ⟨sample.gadgetPath, .ok [1]⟩ sample.gadgetID (by decide)
  have h2 := h.2 [1] ⟨"no validator for the resource type"⟩ rfl rfl rfl
  ⟨h.1, h2.1.1, h2.1.2.2.1⟩

/-- C9: in ListSecrets, a body that cannot be read and a body that does not
decode are each answered with the 400 bad-request payload (code Invalid,
message the error's text) and the provider is not called; a body that decodes
leads to exactly one provider call, ListSecrets with the decoded input. -/
theorem listSecrets_decodes_before_provider (h : handler) (W : World) (req : Request) :
    (∀ err, readJSONBody req = .error err →
      applied (ListSecrets h W req).events =
        [rest.NewBadRequestARMResponse (badRequestBody W err)] ∧
      providerCalls (ListSecrets h W req).events = []) ∧
    (∀ body err, req.Body = .ok body → W.Unmarshal body = .error err →
      applied (ListSecrets h W req).events =
        [rest.NewBadRequestARMResponse (badRequestBody W err)] ∧
      providerCalls (ListSecrets h W req).events = []) ∧
    (∀ body input, req.Body = .ok body → W.Unmarshal body = .ok input →
      providerCalls (ListSecrets h W req).events = [.ListSecrets input]) ∧
    (∀ cause, req.Body = .error cause →
      readJSONBody req = .error ⟨"error reading request body: " ++ cause.text⟩) ∧
    (∀ err, (rest.NewBadRequestARMResponse (badRequestBody W err)).status = 400 ∧
      (badRequestBody W err).Error.Code = W.Invalid ∧
      (badRequestBody W err).Error.Message = err.text) := by
  refine ⟨?_, ?_, ?_, ?_, fun _ => ⟨rfl, rfl, rfl⟩⟩
  rotate_left 3
  · intro cause hcause
    simp [readJSONBody, hcause]
  · intro err hread
    obtain ⟨b1, b2, -⟩ := badRequest_effects W err
    simp [ListSecrets, hread, b1, b2]
  · intro body err hbody hdecode
    obtain ⟨b1, b2, -⟩ := badRequest_effects W err
    simp [ListSecrets, readJSONBody, hbody, hdecode, b1, b2]
  · intro body input hbody hdecode
    simp [ListSecrets, readJSONBody, hbody, hdecode, providerCalls_cons, Event.call?,
      (respond_quiet W _).1]

/-- The three cases of C9 on the sample world: a body that cannot be read, the
empty body, which does not decode, and the body [1], which decodes. -/
theorem listSecrets_decodes_before_provider_witness :
    providerCalls (ListSecrets sample.theHandler sample.world
      ⟨"/listSecrets", .error ⟨"connection reset"⟩⟩).events = [] ∧
    applied (ListSecrets sample.theHandler sample.world
      ⟨"/listSecrets", .error ⟨"connection reset"⟩⟩).events =
        [rest.NewBadRequestARMResponse (badRequestBody sample.world
          ⟨"error reading request body: connection reset"⟩)] ∧
    providerCalls (ListSecrets sample.theHandler sample.world ⟨"/listSecrets", .ok []⟩).events
      = [] ∧
    providerCalls (ListSecrets sample.theHandler sample.world ⟨"/listSecrets", .ok [1]⟩).events
      = [.ListSecrets ⟨"target"⟩] :=
  have h1 := (listSecrets_decodes_before_provider sample.theHandler sample.world
    ⟨"/listSecrets", .error ⟨"connection reset"⟩⟩).1
      ⟨"error reading request body: connection reset"⟩ rfl
  have h2 := (listSecrets_decodes_before_provider sample.theHandler sample.world
    ⟨"/listSecrets", .ok []⟩).2.1 [] ⟨"unexpected end of JSON input"⟩ rfl rfl
  have h3 := (listSecrets_decodes_before_provider sample.theHandler sample.world
    ⟨"/listSecrets", .ok [1]⟩).2.2.1 [1] ⟨"target"⟩ rfl rfl
  ⟨h1.2, h1.1, h2.2, h3⟩

/-- The trace of a handler that reached the provider and got a Go error back:
after effects without a provider call or an applied response come the call,
the logged error and the HTTP 500 payload, and nothing else is applied. -/
theorem failed_call_trace (W : World) (log : List Event) (call : Call) (err : GoError)
    (l1 : providerCalls log = []) (l2 : applied log = []) :
    applied (log ++ .RP call :: respond W (.error err)) =
        [rest.NewInternalServerErrorARMResponse (internalServerErrorBody err)] ∧
      providerCalls (log ++ .RP call :: respond W (.error err)) = [call] ∧
      Event.LogError err "unhandled error" ∈ (log ++ .RP call :: respond W (.error err)) ∧
      (none : Option Panic) = none := by
  obtain ⟨i1, i2, -, -⟩ := internalServerError_effects W err
  rw [respond_error]
  refine ⟨?_, ?_, ?_, rfl⟩
  · simp [applied_append, applied_cons, l2, i2, Event.response?]
  · simp [providerCalls_append, providerCalls_cons, l1, i1, Event.call?]
  · simp [internalServerError]

/-- C2: for every request and each of the eleven handler operations, if the
call the operation makes on the resource provider returns a Go error (for the
eight operations that call the provider at once: the provider's method on the
request's resource id; for the two updates: on the id and the body, once the
body is read, the validator found and the body valid; for ListSecrets: on the
decoded input, once the body is read and decoded), then the handler makes
that one call, logs the error as unhandled, and the one response it applies is
the HTTP 500 payload of internalServerError whose message is the error's
text; no other response is applied and the handler does not panic. -/
theorem provider_failure_answered_with_500 (h : handler) (W : World) (req : Request)
    (err : GoError) :
    (h.rp.ListApplications (resourceID W req).1 = .error err →
      applied (ListApplications h W req).events =
          [rest.NewInternalServerErrorARMResponse (internalServerErrorBody err)] ∧
        providerCalls (ListApplications h W req).events = [.ListApplications (resourceID W req).1] ∧
        Event.LogError err "unhandled error" ∈ (ListApplications h W req).events ∧
        (ListApplications h W req).panic = none) ∧
    (h.rp.GetApplication (resourceID W req).1 = .error err →
      applied (GetApplication h W req).events =
          [rest.NewInternalServerErrorARMResponse (internalServerErrorBody err)] ∧
        providerCalls (GetApplication h W req).events = [.GetApplication (resourceID W req).1] ∧
        Event.LogError err "unhandled error" ∈ (GetApplication h W req).events ∧
        (GetApplication h W req).panic = none) ∧
    (h.rp.DeleteApplication (resourceID W req).1 = .error err →
      applied (DeleteApplication h W req).events =
          [rest.NewInternalServerErrorARMResponse (internalServerErrorBody err)] ∧
        providerCalls (DeleteApplication h W req).events = [.DeleteApplication (resourceID W req).1] ∧
        Event.LogError err "unhandled error" ∈ (DeleteApplication h W req).events ∧
        (DeleteApplication h W req).panic = none) ∧
    (h.rp.ListAllV3ResourcesByApplication (resourceID W req).1 = .error err →
      applied (ListAllV3ResourcesByApplication h W req).events =
          [rest.NewInternalServerErrorARMResponse (internalServerErrorBody err)] ∧
        providerCalls (ListAllV3ResourcesByApplication h W req).events = [.ListAllV3ResourcesByApplication (resourceID W req).1] ∧
        Event.LogError err "unhandled error" ∈ (ListAllV3ResourcesByApplication h W req).events ∧
        (ListAllV3ResourcesByApplication h W req).panic = none) ∧
    (h.rp.ListResources (resourceID W req).1 = .error err →
      applied (ListResources h W req).events =
          [rest.NewInternalServerErrorARMResponse (internalServerErrorBody err)] ∧
        providerCalls (ListResources h W req).events = [.ListResources (resourceID W req).1] ∧
        Event.LogError err "unhandled error" ∈ (ListResources h W req).events ∧
        (ListResources h W req).panic = none) ∧
    (h.rp.GetResource (resourceID W req).1 = .error err →
      applied (GetResource h W req).events =
          [rest.NewInternalServerErrorARMResponse (internalServerErrorBody err)] ∧
        providerCalls (GetResource h W req).events = [.GetResource (resourceID W req).1] ∧
        Event.LogError err "unhandled error" ∈ (GetResource h W req).events ∧
        (GetResource h W req).panic = none) ∧
    (h.rp.DeleteResource (resourceID W req).1 = .error err →
      applied (DeleteResource h W req).events =
          [rest.NewInternalServerErrorARMResponse (internalServerErrorBody err)] ∧
        providerCalls (DeleteResource h W req).events = [.DeleteResource (resourceID W req).1] ∧
        Event.LogError err "unhandled error" ∈ (DeleteResource h W req).events ∧
        (DeleteResource h W req).panic = none) ∧
    (h.rp.GetOperation (resourceID W req).1 = .error err →
      applied (GetOperation h W req).events =
          [rest.NewInternalServerErrorARMResponse (internalServerErrorBody err)] ∧
        providerCalls (GetOperation h W req).events = [.GetOperation (resourceID W req).1] ∧
        Event.LogError err "unhandled error" ∈ (GetOperation h W req).events ∧
        (GetOperation h W req).panic = none) ∧
    (∀ body validator, req.Body = .ok body →
      findValidator h (resourceID W req).1 = .ok (.ok validator) →
      validator.ValidateJSON body = [] →
      h.rp.UpdateApplication (resourceID W req).1 body = .error err →
      applied (UpdateApplication h W req).events =
          [rest.NewInternalServerErrorARMResponse (internalServerErrorBody err)] ∧
        providerCalls (UpdateApplication h W req).events = [.UpdateApplication (resourceID W req).1 body] ∧
        Event.LogError err "unhandled error" ∈ (UpdateApplication h W req).events ∧
        (UpdateApplication h W req).panic = none) ∧
    (∀ body validator, req.Body = .ok body →
      findValidator h (resourceID W req).1 = .ok (.ok validator) →
      validator.ValidateJSON body = [] →
      h.rp.UpdateResource (resourceID W req).1 body = .error err →
      applied (UpdateResource h W req).events =
          [rest.NewInternalServerErrorARMResponse (internalServerErrorBody err)] ∧
        providerCalls (UpdateResource h W req).events = [.UpdateResource (resourceID W req).1 body] ∧
        Event.LogError err "unhandled error" ∈ (UpdateResource h W req).events ∧
        (UpdateResource h W req).panic = none) ∧
    (∀ body input, req.Body = .ok body → W.Unmarshal body = .ok input →
      h.rp.ListSecrets input = .error err →
      applied (ListSecrets h W req).events =
          [rest.NewInternalServerErrorARMResponse (internalServerErrorBody err)] ∧
        providerCalls (ListSecrets h W req).events = [.ListSecrets input] ∧
        Event.LogError err "unhandled error" ∈ (ListSecrets h W req).events ∧
        (ListSecrets h W req).panic = none) ∧
    (rest.NewInternalServerErrorARMResponse (internalServerErrorBody err)).status = 500 ∧
    (internalServerErrorBody err).Error.Message = err.text := by
  obtain ⟨l1, l2, -, -⟩ := resourceID_log W req
  rcases hres : resourceID W req with ⟨id, log⟩
  rw [hres] at l1 l2
  simp only at l1 l2
  have lv1 : ∀ body : Bytes, providerCalls (log ++ [Event.ValidateJSON body]) = [] := fun body => by
    simp [providerCalls_append, providerCalls_cons, providerCalls_nil, l1, Event.call?]
  have lv2 : ∀ body : Bytes, applied (log ++ [Event.ValidateJSON body]) = [] := fun body => by
    simp [applied_append, applied_cons, applied_nil, l2, Event.response?]
  refine ⟨?_, ?_, ?_, ?_, ?_, ?_, ?_, ?_, ?_, ?_, ?_, rfl, rfl⟩
  · intro herr
    simpa only [ListApplications, hres, herr] using failed_call_trace W log (.ListApplications id) err l1 l2
  · intro herr
    simpa only [GetApplication, hres, herr] using failed_call_trace W log (.GetApplication id) err l1 l2
  · intro herr
    simpa only [DeleteApplication, hres, herr] using failed_call_trace W log (.DeleteApplication id) err l1 l2
  · intro herr
    simpa only [ListAllV3ResourcesByApplication, hres, herr] using failed_call_trace W log (.ListAllV3ResourcesByApplication id) err l1 l2
  · intro herr
    simpa only [ListResources, hres, herr] using failed_call_trace W log (.ListResources id) err l1 l2
  · intro herr
    simpa only [GetResource, hres, herr] using failed_call_trace W log (.GetResource id) err l1 l2
  · intro herr
    simpa only [DeleteResource, hres, herr] using failed_call_trace W log (.DeleteResource id) err l1 l2
  · intro herr
    simpa only [GetOperation, hres, herr] using failed_call_trace W log (.GetOperation id) err l1 l2
  · intro body validator hbody hfound hvalid herr
    have htrace := failed_call_trace W (log ++ [.ValidateJSON body]) (.UpdateApplication id body)
      err (lv1 body) (lv2 body)
    simpa [UpdateApplication, readJSONBody, hbody, hres, hfound, hvalid, herr] using htrace
  · intro body validator hbody hfound hvalid herr
    have htrace := failed_call_trace W (log ++ [.ValidateJSON body]) (.UpdateResource id body)
      err (lv1 body) (lv2 body)
    simpa [UpdateResource, readJSONBody, hbody, hres, hfound, hvalid, herr] using htrace
  · intro body input hbody hdecode herr
    have htrace := failed_call_trace W [] (.ListSecrets input) err rfl rfl
    simpa [ListSecrets, readJSONBody, hbody, hdecode, herr] using htrace

/-- Witness of C2 on the provider whose store is down: GetOperation, an
UpdateResource with a valid body and a ListSecrets with a body that decodes
each make their one call and apply only the HTTP 500 payload with the text of
the provider's error. -/
theorem provider_failure_answered_with_500_witness :
    (applied (GetOperation sample.downHandler sample.world ⟨sample.webPath, .ok []⟩).events =
        [rest.NewInternalServerErrorARMResponse (internalServerErrorBody ⟨"db failure"⟩)] ∧
      providerCalls (GetOperation sample.downHandler sample.world
        ⟨sample.webPath, .ok []⟩).events = [.GetOperation sample.webID]) ∧
    (applied (UpdateResource sample.downHandler sample.world ⟨sample.webPath, .ok [1]⟩).events =
        [rest.NewInternalServerErrorARMResponse (internalServerErrorBody ⟨"db failure"⟩)] ∧
      providerCalls (UpdateResource sample.downHandler sample.world
        ⟨sample.webPath, .ok [1]⟩).events = [.UpdateResource sample.webID [1]]) ∧
    (applied (ListSecrets sample.downHandler sample.world ⟨"/listSecrets", .ok [1]⟩).events =
        [rest.NewInternalServerErrorARMResponse (internalServerErrorBody ⟨"db failure"⟩)] ∧
      providerCalls (ListSecrets sample.downHandler sample.world
        ⟨"/listSecrets", .ok [1]⟩).events = [.ListSecrets ⟨"target"⟩]) ∧
    (internalServerErrorBody ⟨"db failure"⟩).Error.Message = "db failure" :=
  have h1 := (provider_failure_answered_with_500 sample.downHandler sample.world
    ⟨sample.webPath, .ok []⟩ ⟨"db failure"⟩).2.2.2.2.2.2.2.1 rfl
  have h2 := (provider_failure_answered_with_500 sample.downHandler sample.world
    ⟨sample.webPath, .ok [1]⟩ ⟨"db failure"⟩).2.2.2.2.2.2.2.2.2.1 [1] sample.validator
      rfl rfl rfl rfl
  have h3 := (provider_failure_answered_with_500 sample.downHandler sample.world
    ⟨"/listSecrets", .ok [1]⟩ ⟨"db failure"⟩).2.2.2.2.2.2.2.2.2.2.1 [1] ⟨"target"⟩ rfl rfl rfl
  ⟨⟨h1.1, h1.2.1⟩, ⟨h2.1, h2.2.1⟩, ⟨h3.1, h3.2.1⟩, rfl⟩

end handlerv3

end Radius

/-! ## The runner of `rad env create` -/

namespace Radius

namespace create

/-- After the workspace, the environment name, the scope and the namespace flag
are read, Validate leaves the runner with the environment name, the namespace
(the flag, or the environment name for the empty flag) and the workspace with
its resolved scope, whatever happens next. -/
theorem Validate_runner {ScopeID : Type} (D : Deps ScopeID) (r : Runner) (cmd : Command)
    (args : List String) (ws : Workspace) (name scope flag : String)
    (hws : D.RequireWorkspace cmd = .ok ws)
    (hname : D.RequireEnvironmentNameArgs cmd args ws = (name, none))
    (hscope : D.RequireScope cmd ws = (scope, none))
    (hflag : cmd.GetString "namespace" = (flag, none)) :
    (Validate D r cmd args).runner.Namespace = (if flag = "" then name else flag) ∧
    (Validate D r cmd args).runner.EnvironmentName = name ∧
    (Validate D r cmd args).runner.Workspace = some { ws with Scope := scope } := by
  simp only [Validate, hws, hname, hscope, hflag]
  repeat' split
  all_goals exact ⟨rfl, rfl, rfl⟩

/-- Under the same readings, the only namespace Validate hands to
ValidateNamespace is the runner's Namespace, and a Validate that returns no
error did hand it over. -/
theorem Validate_namespace_events {ScopeID : Type} (D : Deps ScopeID) (r : Runner)
    (cmd : Command) (args : List String) (ws : Workspace) (name scope flag : String)
    (hws : D.RequireWorkspace cmd = .ok ws)
    (hname : D.RequireEnvironmentNameArgs cmd args ws = (name, none))
    (hscope : D.RequireScope cmd ws = (scope, none))
    (hflag : cmd.GetString "namespace" = (flag, none)) :
    (∀ ns, Event.ValidateNamespace ns ∈ (Validate D r cmd args).events →
      ns = (if flag = "" then name else flag)) ∧
    ((Validate D r cmd args).err = none →
      Event.ValidateNamespace (if flag = "" then name else flag) ∈
        (Validate D r cmd args).events) := by
  simp only [Validate, hws, hname, hscope, hflag]
  split
  · simp
  · split
    · simp
    · split
      · simp
      · split
        · simp
        · split <;> simp

/-- C10: when Validate resolves the workspace, the environment name and the
scope without error and reads the namespace flag, the runner's Namespace is
the environment name if the flag is the empty string and the flag otherwise;
that Namespace is the only one handed to ValidateNamespace (and is handed to
it whenever Validate returns no error); and Run on the validated runner, once
it has a client, sends it to CreateEnvironment in the Kubernetes compute
properties, together with the environment name. -/
theorem namespace_defaults_to_environment_name {ScopeID : Type} (D : Deps ScopeID)
    (r : Runner) (cmd : Command) (args : List String) (ws : Workspace)
    (name scope flag : String)
    (hws : D.RequireWorkspace cmd = .ok ws)
    (hname : D.RequireEnvironmentNameArgs cmd args ws = (name, none))
    (hscope : D.RequireScope cmd ws = (scope, none))
    (hflag : cmd.GetString "namespace" = (flag, none)) :
    (Validate D r cmd args).runner.Namespace = (if flag = "" then name else flag) ∧
    (∀ ns, Event.ValidateNamespace ns ∈ (Validate D r cmd args).events →
      ns = (Validate D r cmd args).runner.Namespace) ∧
    ((Validate D r cmd args).err = none →
      Event.ValidateNamespace (Validate D r cmd args).runner.Namespace ∈
        (Validate D r cmd args).events) ∧
    (∀ out, Run D (Validate D r cmd args).runner = .ok out →
      ∀ n l p, Event.CreateEnvironment n l p ∈ out.events →
        p = { Compute := some { Namespace := some (Validate D r cmd args).runner.Namespace } }) ∧
    (∀ client, D.CreateApplicationsManagementClient { ws with Scope := scope } = .ok client →
      ∃ out, Run D (Validate D r cmd args).runner = .ok out ∧
        Event.CreateEnvironment name D.LocationGlobal
          { Compute := some { Namespace := some (Validate D r cmd args).runner.Namespace } } ∈
            out.events) := by
  obtain ⟨hns, henv, hwork⟩ := Validate_runner D r cmd args ws name scope flag hws hname hscope hflag
  obtain ⟨honly, hdone⟩ :=
    Validate_namespace_events D r cmd args ws name scope flag hws hname hscope hflag
  refine ⟨hns, ?_, ?_, ?_, ?_⟩
  · rw [hns]
    exact honly
  · rw [hns]
    exact hdone
  · intro out hrun n l p hmem
    simp only [Run, hwork] at hrun
    split at hrun
    · cases hrun
      simp at hmem
    · split at hrun <;> cases hrun <;> simp at hmem <;> exact hmem.2.2
  · intro client hclient
    simp only [Run, hwork, hclient, henv]
    split <;> simp

/-- Witness of C10: `rad env create prod` without a namespace flag validates
and creates the environment in the namespace prod. -/
theorem namespace_defaults_to_environment_name_witness :
    (Validate sample.deps sample.runner (sample.command "") ["prod"]).runner.Namespace = "prod" ∧
    Event.ValidateNamespace "prod" ∈
      (Validate sample.deps sample.runner (sample.command "") ["prod"]).events ∧
    ∃ out, Run sample.deps (Validate sample.deps sample.runner (sample.command "")
        ["prod"]).runner = .ok out ∧
      Event.CreateEnvironment "prod" "global" { Compute := some { Namespace := some "prod" } } ∈
        out.events :=
  have h := namespace_defaults_to_environment_name sample.deps sample.runner (sample.command "")
    ["prod"] sample.workspace "prod" "/planes/radius/local/resourceGroups/default" ""
    rfl rfl rfl rfl
  ⟨h.1, h.2.2.1 (by decide), h.2.2.2.2 sample.client rfl⟩

/-- C11: once Validate has its client and has parsed the workspace scope, the
group it looks up (ShowUCPGroup in the plane radius/local) is the
resource-group segment of that parsed scope, and it is the only lookup; a
lookup that fails with a 404 error makes Validate return the message error
"Resource group " followed by the quoted group name and " could not be
found."; a lookup that fails with any other error makes Validate return that
error unchanged; in both cases ValidateNamespace is not called. -/
theorem missing_group_stops_validate {ScopeID : Type} (D : Deps ScopeID) (r : Runner)
    (cmd : Command) (args : List String) (ws : Workspace) (name scope flag : String)
    (client : Client) (scopeId : ScopeID)
    (hws : D.RequireWorkspace cmd = .ok ws)
    (hname : D.RequireEnvironmentNameArgs cmd args ws = (name, none))
    (hscope : D.RequireScope cmd ws = (scope, none))
    (hflag : cmd.GetString "namespace" = (flag, none))
    (hclient : D.CreateApplicationsManagementClient { ws with Scope := scope } = .ok client)
    (hparse : D.Parse scope = .ok scopeId) :
    (Validate D r cmd args).runner.ResourceGroupName =
      D.FindScope scopeId D.ResourceGroupsSegment ∧
    (∀ planeType planeName group,
      Event.ShowUCPGroup planeType planeName group ∈ (Validate D r cmd args).events →
        planeType = "radius" ∧ planeName = "local" ∧
        group = D.FindScope scopeId D.ResourceGroupsSegment) ∧
    Event.ShowUCPGroup "radius" "local" (D.FindScope scopeId D.ResourceGroupsSegment) ∈
      (Validate D r cmd args).events ∧
    (∀ e, client.ShowUCPGroup "radius" "local" (D.FindScope scopeId D.ResourceGroupsSegment)
        = some e → D.Is404Error (some e) = true →
      (Validate D r cmd args).err =
        some ⟨"Resource group " ++ D.Quote (D.FindScope scopeId D.ResourceGroupsSegment) ++
          " could not be found."⟩ ∧
      ∀ ns, Event.ValidateNamespace ns ∉ (Validate D r cmd args).events) ∧
    (∀ e, client.ShowUCPGroup "radius" "local" (D.FindScope scopeId D.ResourceGroupsSegment)
        = some e → D.Is404Error (some e) = false →
      (Validate D r cmd args).err = some e ∧
      ∀ ns, Event.ValidateNamespace ns ∉ (Validate D r cmd args).events) := by
  simp only [Validate, hws, hname, hscope, hflag, hclient, hparse]
  refine ⟨?_, ?_, ?_, ?_, ?_⟩
  · repeat' split
    all_goals rfl
  · intro planeType planeName group
    repeat' split
    all_goals simp
  · repeat' split
    all_goals simp
  · intro e hlookup h404
    rw [hlookup, h404]
    simp [groupNotFound]
  · intro e hlookup h404
    rw [hlookup, h404]
    simp

/-- Witness of C11: in the workspace whose scope names the group lost, the
sample client answers the lookup of lost with a 404 and Validate returns the
message error naming lost; a client whose lookup fails with another error
makes Validate return that error; ValidateNamespace is called in neither. -/
theorem missing_group_stops_validate_witness :
    (Validate (sample.lostDeps sample.client) sample.runner (sample.command "")
      ["prod"]).err = some ⟨"Resource group \"lost\" could not be found."⟩ ∧
    (Validate (sample.lostDeps sample.client) sample.runner (sample.command "")
      ["prod"]).events = [.ShowUCPGroup "radius" "local" "lost"] ∧
    (Validate (sample.lostDeps sample.downClient) sample.runner (sample.command "")
      ["prod"]).err = some ⟨"connection refused"⟩ ∧
    (Validate (sample.lostDeps sample.downClient) sample.runner (sample.command "")
      ["prod"]).events = [.ShowUCPGroup "radius" "local" "lost"] :=
  have h := missing_group_stops_validate (sample.lostDeps sample.client) sample.runner
    (sample.command "") ["prod"] ⟨"lost", "/planes/radius/local/resourceGroups/lost"⟩ "prod"
    "/planes/radius/local/resourceGroups/lost" "" sample.client
    [("radius", "local"), ("resourcegroups", "lost")] rfl rfl rfl rfl rfl rfl
  have h2 := missing_group_stops_validate (sample.lostDeps sample.downClient) sample.runner
    (sample.command "") ["prod"] ⟨"lost", "/planes/radius/local/resourceGroups/lost"⟩ "prod"
    "/planes/radius/local/resourceGroups/lost" "" sample.downClient
    [("radius", "local"), ("resourcegroups", "lost")] rfl rfl rfl rfl rfl rfl
  ⟨(h.2.2.2.1 ⟨"404 Not Found"⟩ rfl (by decide)).1, by decide,
    (h2.2.2.2.2 ⟨"connection refused"⟩ rfl (by decide)).1, by decide⟩

end create

end Radius

/-! ## The Operation Engine, as the specification describes it -/

namespace Radius

namespace engine

/-- Only a state that is in flight has an outgoing edge: terminal states are
absorbing. -/
theorem next_from_in_flight (s d : Status) (h : s.next d = true) : s.terminal = false := by
  cases s <;> cases d <;> simp_all [Status.next, Status.terminal]

/-- Rewriting records so that no record becomes selected that was not selected
before cannot lengthen the selection. -/
theorem filter_map_length_le {α : Type} (f : α → α) (p : α → Bool)
    (hp : ∀ x, p (f x) = true → p x = true) (l : List α) :
    ((l.map f).filter p).length ≤ (l.filter p).length := by
  induction l with
  | nil => simp
  | cons a l ih =>
    simp only [List.map_cons, List.filter_cons]
    cases h1 : p (f a) <;> cases h2 : p a
    · simpa using ih
    · simp only [Bool.false_eq_true, if_false, if_true, List.length_cons]
      omega
    · have h3 := hp a h1
      rw [h2] at h3
      cases h3
    · simpa using ih

/-- A move along the state machine does not add a non-terminal record. -/
theorem nonTerminal_move_le (e : Engine) (operationID : Nat) (dest : Status)
    (resourceID : String) :
    (nonTerminal (move e operationID dest) resourceID).length ≤
      (nonTerminal e resourceID).length := by
  unfold nonTerminal move
  apply filter_map_length_le
  intro r hr
  by_cases hc : r.operationID = operationID ∧ r.status.next dest = true
  · have hterm := next_from_in_flight r.status dest hc.2
    simp only [hc, and_self, if_true, Bool.and_eq_true] at hr
    simp [hr.1, hterm]
  · simpa only [hc, if_false] using hr

/-- A retry does not add a non-terminal record. -/
theorem nonTerminal_retry_le (e : Engine) (operationID : Nat) (resourceID : String) :
    (nonTerminal (retry e operationID) resourceID).length ≤
      (nonTerminal e resourceID).length := by
  unfold nonTerminal retry
  apply filter_map_length_le
  intro r hr
  by_cases hc : r.operationID = operationID ∧ r.status = .Provisioning
  · simpa only [hc, and_self, if_true] using hr
  · simpa only [hc, if_false] using hr

/-- An operation is in flight for a resource id exactly when the id has a
non-terminal record. -/
theorem inFlight_iff (e : Engine) (resourceID : String) :
    inFlight e resourceID = true ↔ nonTerminal e resourceID ≠ [] := by
  unfold inFlight nonTerminal
  rw [List.any_eq_true, Ne, List.filter_eq_nil_iff]
  push_neg
  rfl

/-- One step of the engine keeps at most one non-terminal record per resource id. -/
theorem step_keeps_one (e : Engine) (a : Action)
    (h : ∀ resourceID, (nonTerminal e resourceID).length ≤ 1) :
    ∀ resourceID, (nonTerminal (step e a) resourceID).length ≤ 1 := by
  intro resourceID
  cases a with
  | move operationID dest =>
    exact Nat.le_trans (nonTerminal_move_le e operationID dest resourceID) (h resourceID)
  | retry operationID =>
    exact Nat.le_trans (nonTerminal_retry_le e operationID resourceID) (h resourceID)
  | enqueue kind target =>
    simp only [step, Enqueue]
    cases hfl : inFlight e target
    · simp only [Bool.false_eq_true, if_false]
      have hnone : nonTerminal e target = [] := by
        by_contra hne
        rw [(inFlight_iff e target).mpr hne] at hfl
        cases hfl
      by_cases heq : target = resourceID
      · subst heq
        simp only [nonTerminal, List.filter_append] at hnone ⊢
        rw [hnone]
        simp [List.filter_cons, Status.terminal]
      · have := h resourceID
        simp only [nonTerminal, List.filter_append] at this ⊢
        simpa [List.filter_cons, heq] using this
    · simp only [if_true]
      exact h resourceID

/-- Every history of actions keeps at most one non-terminal record per
resource id, from any engine that has the property. -/
theorem foldl_keeps_one (history : List Action) (e : Engine)
    (h : ∀ resourceID, (nonTerminal e resourceID).length ≤ 1) :
    ∀ resourceID, (nonTerminal (history.foldl step e) resourceID).length ≤ 1 := by
  induction history generalizing e with
  | nil => exact h
  | cons a history ih => exact ih (step e a) (step_keeps_one e a h)

/-- C7: in the Operation Engine modelled from the specification, after every
history of enqueues, moves along the state machine and retries, each resource
id has at most one non-terminal Operation Record; Enqueue on a resource id
that has one is rejected with the conflict error and changes nothing, and
Enqueue on a resource id that has none creates exactly one Operation Record,
in state Accepted, which is then the only non-terminal record of that id. -/
theorem one_in_flight_per_resource (history : List Action) (kind : Kind)
    (resourceID : String) :
    (nonTerminal (run history) resourceID).length ≤ 1 ∧
    (nonTerminal (run history) resourceID ≠ [] →
      Enqueue (run history) kind resourceID = .error .conflict ∧
      step (run history) (.enqueue kind resourceID) = run history) ∧
    (nonTerminal (run history) resourceID = [] →
      ∃ operationID e, Enqueue (run history) kind resourceID = .ok (operationID, e) ∧
        e.records = (run history).records ++
          [{ operationID := operationID, target := resourceID, kind := kind,
             status := .Accepted, retryCount := 0 }] ∧
        nonTerminal e resourceID =
          [{ operationID := operationID, target := resourceID, kind := kind,
             status := .Accepted, retryCount := 0 }]) := by
  refine ⟨foldl_keeps_one history Engine.empty (fun _ => by simp [nonTerminal, Engine.empty])
    resourceID, ?_, ?_⟩
  · intro hne
    have hfl := (inFlight_iff (run history) resourceID).mpr hne
    simp [step, Enqueue, hfl]
  · intro hnone
    have hfl : ¬ inFlight (run history) resourceID = true := fun hfl =>
      (inFlight_iff (run history) resourceID).mp hfl hnone
    refine ⟨(run history).nextID, _, by simp only [Enqueue, hfl]; rfl, rfl, ?_⟩
    simp only [nonTerminal, List.filter_append] at hnone ⊢
    rw [hnone]
    simp [List.filter_cons, Status.terminal]

/-- The second scenario of the specification: of two enqueues on res/A the
first is accepted and the second is a conflict, also after the operation
started provisioning; once it succeeded, a new enqueue is accepted. -/
theorem one_in_flight_per_resource_witness :
    Enqueue (run [.enqueue .create "res/A"]) .update "res/A" = .error .conflict ∧
    Enqueue (run [.enqueue .create "res/A", .move 0 .Provisioning]) .update "res/A" =
      .error .conflict ∧
    (nonTerminal (run [.enqueue .create "res/A", .enqueue .update "res/A",
      .move 0 .Provisioning, .move 0 .Succeeded, .enqueue .delete "res/A"]) "res/A").length = 1 ∧
    (run [.enqueue .create "res/A", .enqueue .update "res/A",
      .move 0 .Provisioning, .move 0 .Succeeded, .enqueue .delete "res/A"]).records.length = 2 :=
  ⟨((one_in_flight_per_resource [.enqueue .create "res/A"] .update "res/A").2.1
      (by decide)).1,
    rfl, by decide, by decide⟩

end engine

end Radius
